import Mathlib

/-!
Verification of the SkyhookDM tabular utilities header
(`src/cls/tabular/cls_tabular_utils.h`) against its natural-language
specification.  The C++ declarations are shallowly embedded as Lean
definitions; machine integers are modelled as `Nat`/`Int`, fallible
constructors as `Option`, and C++ `double` values as `ℚ` (the inputs of
interest are exactly representable).
-/

namespace Tables

/-! ### Enumerations (`TablesErrCodes`, `SkyDataType`, `SkyOpType`)

The C++ enums are plain integer constants; we embed each value by its
numeric code, matching the `// note: must start at 1` comments. -/

def EmptySchema : Int := 1
def BadColInfoFormat : Int := 2
def BadColInfoConversion : Int := 3
def UnsupportedSkyDataType : Int := 4
def UnsupportedAggDataType : Int := 5
def UnknownSkyDataType : Int := 6
def RequestedColIndexOOB : Int := 7
def PredicateComparisonNotDefined : Int := 8
def PredicateRegexPatternNotSet : Int := 9
def OpNotRecognized : Int := 10
def OpNotImplemented : Int := 11

def SDT_INT8 : Int := 1
def SDT_INT16 : Int := 2
def SDT_INT32 : Int := 3
def SDT_INT64 : Int := 4
def SDT_UINT8 : Int := 5
def SDT_UINT16 : Int := 6
def SDT_UINT32 : Int := 7
def SDT_UINT64 : Int := 8
def SDT_CHAR : Int := 9
def SDT_UCHAR : Int := 10
def SDT_BOOL : Int := 11
def SDT_FLOAT : Int := 12
def SDT_DOUBLE : Int := 13
def SDT_DATE : Int := 14
def SDT_STRING : Int := 15
def SDT_FIRST : Int := SDT_INT8
def SDT_LAST : Int := SDT_STRING

def SOT_lt : Int := 1
def SOT_gt : Int := 2
def SOT_eq : Int := 3
def SOT_ne : Int := 4
def SOT_leq : Int := 5
def SOT_geq : Int := 6
def SOT_add : Int := 7
def SOT_sub : Int := 8
def SOT_mul : Int := 9
def SOT_div : Int := 10
def SOT_min : Int := 11
def SOT_max : Int := 12
def SOT_sum : Int := 13
def SOT_cnt : Int := 14
def SOT_like : Int := 15
def SOT_in : Int := 16
def SOT_not_in : Int := 17
def SOT_between : Int := 18
def SOT_logical_or : Int := 19
def SOT_logical_and : Int := 20
def SOT_logical_not : Int := 21
def SOT_logical_nor : Int := 22
def SOT_logical_xor : Int := 23
def SOT_logical_nand : Int := 24
def SOT_bitwise_and : Int := 25
def SOT_bitwise_or : Int := 26

/-! ### `computeAgg`

```cpp
template <typename T>
T computeAgg(const T& val, const T& oldval, const int& op) {
    switch (op) {
        case SOT_min: if (val < oldval) return val;
        case SOT_max: if (val > oldval) return val;
        case SOT_sum: return oldval + val;
        case SOT_cnt: return oldval + 1;
        default: assert (TablesErrCodes::OpNotImplemented);
    }
    return oldval;
}
```

The `switch` has no `break` statements, so control falls through from
`SOT_min` into `SOT_max` and then into `SOT_sum`; the embedding
reproduces the fall-through exactly.  In the `default` case the
`assert` argument is the nonzero enum value `OpNotImplemented`, so the
assertion passes and `oldval` is returned. -/

def computeAgg {T : Type} [LinearOrder T] [Add T] [One T]
    (val oldval : T) (op : Int) : T :=
  if op = SOT_min then
    (if val < oldval then val
     else if val > oldval then val
     else oldval + val)
  else if op = SOT_max then
    (if val > oldval then val else oldval + val)
  else if op = SOT_sum then oldval + val
  else if op = SOT_cnt then oldval + 1
  else oldval

/-- C1: evaluating the code at the failing inputs.  `computeAgg` with op MIN
on new value 5 and running value 3 returns 5 (it falls through to the MAX
branch), not the smaller value 3; with op MAX on new value 3 and running
value 5 it returns 8 (it falls through to the SUM branch), not the larger
value 5.  The claim that MIN keeps the smaller and MAX keeps the larger
therefore fails on the code. -/
theorem computeAgg_min_max_fallthrough_bug :
    computeAgg (5 : ℚ) 3 SOT_min = 5 ∧ computeAgg (3 : ℚ) 5 SOT_max = 8 := by
  constructor <;> norm_num [computeAgg, SOT_min, SOT_max, SOT_sum, SOT_cnt]

/-- C2: folding `computeAgg` with op SUM over the values 1.0, 5.0, 10.0
starting from the identity accumulator 0 yields 16.0, and folding with op
COUNT over the same three values starting from 0 yields 3. -/
theorem computeAgg_fold_sum_cnt :
    List.foldl (fun acc v => computeAgg v acc SOT_sum) (0 : ℚ) [1, 5, 10] = 16 ∧
    List.foldl (fun acc v => computeAgg v acc SOT_cnt) (0 : ℚ) [1, 5, 10] = 3 := by
  constructor <;> norm_num [computeAgg, SOT_min, SOT_max, SOT_sum, SOT_cnt]

/-! ### Decimal strings

`u64tostr` and `std::to_string` produce decimal representations.  We use
core's `Nat.repr` (whose kernel definition is `(Nat.toDigits 10 n).asString`)
as the embedding of decimal formatting, and relate it to the proof-friendly
recursion `decRepr` below. -/

/-- Most-significant-digit-first decimal digit characters of `v`; a
proof-friendly recursion that agrees with `Nat.repr`
(`Nat_repr_data_eq_decRepr`). -/
def decRepr (v : Nat) : List Char :=
  if _h : v < 10 then [Nat.digitChar v]
  else decRepr (v / 10) ++ [Nat.digitChar (v % 10)]
decreasing_by exact Nat.div_lt_self (by omega) (by omega)

theorem decRepr_lt10 (v : Nat) (h : v < 10) : decRepr v = [Nat.digitChar v] := by
  rw [decRepr, dif_pos h]

theorem decRepr_ge10 (v : Nat) (h : ¬ v < 10) :
    decRepr v = decRepr (v / 10) ++ [Nat.digitChar (v % 10)] := by
  rw [decRepr, dif_neg h]

theorem toDigitsCore_succ (base fuel n : Nat) (ds : List Char) :
    Nat.toDigitsCore base (fuel + 1) n ds =
      if n / base = 0 then Nat.digitChar (n % base) :: ds
      else Nat.toDigitsCore base fuel (n / base) (Nat.digitChar (n % base) :: ds) :=
  rfl

theorem toDigitsCore_eq_decRepr (fuel : Nat) :
    ∀ n ds, n < 10 ^ (fuel + 1) →
      Nat.toDigitsCore 10 (fuel + 1) n ds = decRepr n ++ ds := by
  induction fuel with
  | zero =>
    intro n ds h
    have h10 : n < 10 := by simpa using h
    have hdiv : n / 10 = 0 := Nat.div_eq_of_lt h10
    have hmod : n % 10 = n := Nat.mod_eq_of_lt h10
    rw [toDigitsCore_succ, if_pos hdiv, hmod, decRepr_lt10 n h10]
    simp
  | succ f ih =>
    intro n ds h
    by_cases h10 : n < 10
    · have hdiv : n / 10 = 0 := Nat.div_eq_of_lt h10
      have hmod : n % 10 = n := Nat.mod_eq_of_lt h10
      rw [toDigitsCore_succ, if_pos hdiv, hmod, decRepr_lt10 n h10]
      simp
    · have hdiv : ¬ n / 10 = 0 := by omega
      have hlt : n / 10 < 10 ^ (f + 1) := by
        have hmul : n < 10 * 10 ^ (f + 1) := by
          rw [← pow_succ']; exact h
        exact Nat.div_lt_of_lt_mul hmul
      rw [toDigitsCore_succ, if_neg hdiv,
        ih (n / 10) (Nat.digitChar (n % 10) :: ds) hlt,
        decRepr_ge10 n h10, List.append_assoc]
      simp

theorem Nat_repr_data_eq_decRepr (n : Nat) : (Nat.repr n).data = decRepr n := by
  have hn : n < 10 ^ (n + 1) := by
    calc n < 2 ^ n := Nat.lt_two_pow n
    _ ≤ 10 ^ n := Nat.pow_le_pow_left (by omega) n
    _ ≤ 10 ^ (n + 1) := Nat.pow_le_pow_right (by omega) (Nat.le_succ n)
  show (Nat.toDigits 10 n).asString.data = decRepr n
  rw [Nat.toDigits, toDigitsCore_eq_decRepr n n [] hn]
  simp [List.asString]

/-! Basic facts about decimal digit characters; all are bounded statements
settled by `decide`. -/

theorem digitChar_toNat : ∀ d : Nat, d < 10 → (Nat.digitChar d).toNat = 48 + d := by
  decide

theorem digitChar_strict_mono :
    ∀ a : Nat, a < 10 → ∀ b : Nat, b < 10 → a < b →
      Nat.digitChar a < Nat.digitChar b := by
  decide

theorem digitChar_digit : ∀ d : Nat, d < 10 → (Nat.digitChar d).isDigit = true := by
  decide

theorem digitChar_not_ws :
    ∀ d : Nat, d < 10 → (Nat.digitChar d).isWhitespace = false := by
  decide

theorem decRepr_ne_nil (v : Nat) : decRepr v ≠ [] := by
  by_cases h : v < 10
  · rw [decRepr_lt10 v h]; simp
  · rw [decRepr_ge10 v h]; simp

theorem decRepr_all_digits (v : Nat) : (decRepr v).all Char.isDigit = true := by
  induction v using Nat.strong_induction_on with
  | _ v ih =>
    by_cases h : v < 10
    · rw [decRepr_lt10 v h]
      simp [digitChar_digit v h]
    · rw [decRepr_ge10 v h]
      have hlt : v / 10 < v := Nat.div_lt_self (by omega) (by omega)
      simp [ih (v / 10) hlt, digitChar_digit (v % 10) (Nat.mod_lt v (by omega))]

theorem decRepr_all_not_ws (v : Nat) :
    (decRepr v).all (fun c => !c.isWhitespace) = true := by
  induction v using Nat.strong_induction_on with
  | _ v ih =>
    by_cases h : v < 10
    · rw [decRepr_lt10 v h]
      simp [digitChar_not_ws v h]
    · rw [decRepr_ge10 v h]
      have hlt : v / 10 < v := Nat.div_lt_self (by omega) (by omega)
      simp [ih (v / 10) hlt, digitChar_not_ws (v % 10) (Nat.mod_lt v (by omega))]

/-- The zero-padded, width-`n`, most-significant-digit-first decimal digit
characters of `v` (meaningful for `v < 10 ^ n`); the normal form through
which the ordering and padding lemmas are proved. -/
def padDigits : Nat → Nat → List Char
  | 0, _ => []
  | n + 1, v => Nat.digitChar (v / 10 ^ n) :: padDigits n (v % 10 ^ n)

theorem padDigits_length (n : Nat) : ∀ v, (padDigits n v).length = n := by
  induction n with
  | zero => intro v; rfl
  | succ n ih => intro v; simp [padDigits, ih]

theorem padDigits_lt (n : Nat) :
    ∀ v1 v2, v1 < v2 → v2 < 10 ^ n →
      List.Lex (· < ·) (padDigits n v1) (padDigits n v2) := by
  induction n with
  | zero =>
    intro v1 v2 h12 h2
    simp at h2
    omega
  | succ n ih =>
    intro v1 v2 h12 h2
    have hpos : 0 < 10 ^ n := Nat.pos_pow_of_pos n (by omega)
    have hd2 : v2 / 10 ^ n < 10 := by
      have hmul : v2 < 10 ^ n * 10 := by rw [← pow_succ]; exact h2
      exact Nat.div_lt_of_lt_mul hmul
    have hdle : v1 / 10 ^ n ≤ v2 / 10 ^ n := Nat.div_le_div_right (Nat.le_of_lt h12)
    rcases Nat.lt_or_ge (v1 / 10 ^ n) (v2 / 10 ^ n) with hlt | hge
    · exact List.Lex.rel (digitChar_strict_mono _ (by omega) _ hd2 hlt)
    · have heq : v1 / 10 ^ n = v2 / 10 ^ n := by omega
      have e1 := Nat.div_add_mod v1 (10 ^ n)
      have e2 := Nat.div_add_mod v2 (10 ^ n)
      rw [heq] at e1
      have hmods : v1 % 10 ^ n < v2 % 10 ^ n := by omega
      have hmod2 : v2 % 10 ^ n < 10 ^ n := Nat.mod_lt v2 hpos
      show List.Lex (· < ·)
        (Nat.digitChar (v1 / 10 ^ n) :: padDigits n (v1 % 10 ^ n))
        (Nat.digitChar (v2 / 10 ^ n) :: padDigits n (v2 % 10 ^ n))
      rw [heq]
      exact List.Lex.cons (ih _ _ hmods hmod2)

theorem decRepr_length_le (n : Nat) :
    ∀ v, v < 10 ^ (n + 1) → (decRepr v).length ≤ n + 1 := by
  induction n with
  | zero =>
    intro v h
    have h10 : v < 10 := by simpa using h
    rw [decRepr_lt10 v h10]; simp
  | succ n ih =>
    intro v h
    by_cases h10 : v < 10
    · rw [decRepr_lt10 v h10]; simp
    · rw [decRepr_ge10 v h10]
      have hlt : v / 10 < 10 ^ (n + 1) := by
        have hmul : v < 10 * 10 ^ (n + 1) := by rw [← pow_succ']; exact h
        exact Nat.div_lt_of_lt_mul hmul
      have := ih (v / 10) hlt
      simp only [List.length_append, List.length_cons, List.length_nil]
      omega

theorem decRepr_length_eq (n : Nat) :
    ∀ v, 10 ^ n ≤ v → v < 10 ^ (n + 1) → (decRepr v).length = n + 1 := by
  induction n with
  | zero =>
    intro v _ h2
    have h10 : v < 10 := by simpa using h2
    rw [decRepr_lt10 v h10]; simp
  | succ n ih =>
    intro v h1 h2
    have h10 : ¬ v < 10 := by
      have : (10 : Nat) ≤ 10 ^ (n + 1) := by
        calc (10 : Nat) = 10 ^ 1 := (pow_one 10).symm
        _ ≤ 10 ^ (n + 1) := Nat.pow_le_pow_right (by omega) (by omega)
      omega
    rw [decRepr_ge10 v h10]
    have hle : 10 ^ n ≤ v / 10 := by
      rw [Nat.le_div_iff_mul_le (by omega)]
      calc 10 ^ n * 10 = 10 ^ (n + 1) := (pow_succ 10 n).symm
      _ ≤ v := h1
    have hlt : v / 10 < 10 ^ (n + 1) := by
      have hmul : v < 10 * 10 ^ (n + 1) := by rw [← pow_succ']; exact h2
      exact Nat.div_lt_of_lt_mul hmul
    have := ih (v / 10) hle hlt
    simp only [List.length_append, List.length_cons, List.length_nil]
    omega

theorem padDigits_snoc (n : Nat) :
    ∀ v, v < 10 ^ (n + 1) →
      padDigits (n + 1) v = padDigits n (v / 10) ++ [Nat.digitChar (v % 10)] := by
  induction n with
  | zero =>
    intro v h
    have h10 : v < 10 := by simpa using h
    have hmod : v % 10 = v := Nat.mod_eq_of_lt h10
    simp [padDigits, Nat.div_one, hmod]
  | succ n ih =>
    intro v h
    have hpos : 0 < 10 ^ (n + 1) := Nat.pos_pow_of_pos _ (by omega)
    have h1 : v / 10 / 10 ^ n = v / 10 ^ (n + 1) := by
      rw [Nat.div_div_eq_div_mul]
      congr 1
      rw [pow_succ']
    have h2 : v / 10 % 10 ^ n = v % 10 ^ (n + 1) / 10 := by
      rw [← Nat.mod_mul_right_div_self]
      congr 2
      rw [pow_succ']
    have h3 : v % 10 ^ (n + 1) % 10 = v % 10 := by
      apply Nat.mod_mod_of_dvd
      exact ⟨10 ^ n, (pow_succ' 10 n)⟩
    have hmlt : v % 10 ^ (n + 1) < 10 ^ (n + 1) := Nat.mod_lt v hpos
    calc padDigits (n + 2) v
        = Nat.digitChar (v / 10 ^ (n + 1)) :: padDigits (n + 1) (v % 10 ^ (n + 1)) := rfl
    _ = Nat.digitChar (v / 10 ^ (n + 1)) ::
          (padDigits n (v % 10 ^ (n + 1) / 10) ++ [Nat.digitChar (v % 10 ^ (n + 1) % 10)]) := by
        rw [ih _ hmlt]
    _ = Nat.digitChar (v / 10 / 10 ^ n) ::
          (padDigits n (v / 10 % 10 ^ n) ++ [Nat.digitChar (v % 10)]) := by
        rw [h1, h2, h3]
    _ = padDigits (n + 1) (v / 10) ++ [Nat.digitChar (v % 10)] := rfl

theorem decRepr_eq_padDigits (n : Nat) :
    ∀ v, 10 ^ n ≤ v → v < 10 ^ (n + 1) → decRepr v = padDigits (n + 1) v := by
  induction n with
  | zero =>
    intro v _ h2
    have h10 : v < 10 := by simpa using h2
    have hmod : v % 10 = v := Nat.mod_eq_of_lt h10
    rw [decRepr_lt10 v h10]
    simp [padDigits, Nat.div_one, hmod]
  | succ n ih =>
    intro v h1 h2
    have h10 : ¬ v < 10 := by
      have : (10 : Nat) ≤ 10 ^ (n + 1) := by
        calc (10 : Nat) = 10 ^ 1 := (pow_one 10).symm
        _ ≤ 10 ^ (n + 1) := Nat.pow_le_pow_right (by omega) (by omega)
      omega
    have hle : 10 ^ n ≤ v / 10 := by
      rw [Nat.le_div_iff_mul_le (by omega)]
      calc 10 ^ n * 10 = 10 ^ (n + 1) := (pow_succ 10 n).symm
      _ ≤ v := h1
    have hlt : v / 10 < 10 ^ (n + 1) := by
      have hmul : v < 10 * 10 ^ (n + 1) := by rw [← pow_succ']; exact h2
      exact Nat.div_lt_of_lt_mul hmul
    rw [decRepr_ge10 v h10, ih (v / 10) hle hlt, ← padDigits_snoc (n + 1) v h2]

theorem replicate_decRepr_eq_padDigits (n : Nat) :
    ∀ v, v < 10 ^ (n + 1) →
      List.replicate (n + 1 - (decRepr v).length) '0' ++ decRepr v =
        padDigits (n + 1) v := by
  induction n with
  | zero =>
    intro v h
    have h10 : v < 10 := by simpa using h
    have hmod : v % 10 = v := Nat.mod_eq_of_lt h10
    rw [decRepr_lt10 v h10]
    simp [padDigits, Nat.div_one, hmod]
  | succ n ih =>
    intro v h
    by_cases hv : v < 10 ^ (n + 1)
    · have hlen : (decRepr v).length ≤ n + 1 := decRepr_length_le n v hv
      have hdiv : v / 10 ^ (n + 1) = 0 := Nat.div_eq_of_lt hv
      have hmod : v % 10 ^ (n + 1) = v := Nat.mod_eq_of_lt hv
      have hsub : n + 2 - (decRepr v).length = (n + 1 - (decRepr v).length) + 1 := by
        omega
      calc List.replicate (n + 2 - (decRepr v).length) '0' ++ decRepr v
          = '0' :: (List.replicate (n + 1 - (decRepr v).length) '0' ++ decRepr v) := by
            rw [hsub, List.replicate_succ]; simp
      _ = '0' :: padDigits (n + 1) v := by rw [ih v hv]
      _ = padDigits (n + 2) v := by
            show _ = Nat.digitChar (v / 10 ^ (n + 1)) :: padDigits (n + 1) (v % 10 ^ (n + 1))
            rw [hdiv, hmod]
            rfl
    · have h1 : 10 ^ (n + 1) ≤ v := Nat.le_of_not_lt hv
      have hlen : (decRepr v).length = n + 2 := decRepr_length_eq (n + 1) v h1 h
      rw [hlen]
      simp only [Nat.sub_self, List.replicate_zero, List.nil_append]
      exact decRepr_eq_padDigits (n + 1) v h1 h

/-! ### `u64tostr` and `strtou64`

```cpp
static inline std::string u64tostr(uint64_t value)
{
  std::stringstream ss;
  ss << std::setw(20) << std::setfill('0') << value;
  return ss.str();
}
```

Stream insertion of an unsigned value with `setw(20)`/`setfill('0')`
writes the decimal representation left-padded with `'0'` to width 20
(no value of `uint64_t` has more than 20 digits).  The decimal
representation is embedded by `Nat.repr`. -/

def u64tostr (v : Nat) : String :=
  ⟨List.replicate (20 - (Nat.repr v).length) '0' ++ (Nat.repr v).data⟩

theorem u64tostr_data (v : Nat) (h : v < 10 ^ 20) :
    (u64tostr v).data = padDigits 20 v := by
  have hr : (Nat.repr v).data = decRepr v := Nat_repr_data_eq_decRepr v
  have hl : (Nat.repr v).length = (decRepr v).length := by
    show (Nat.repr v).data.length = _
    rw [hr]
  show List.replicate (20 - (Nat.repr v).length) '0' ++ (Nat.repr v).data = _
  rw [hr, hl]
  exact replicate_decRepr_eq_padDigits 19 v h

theorem two_pow_64_lt_ten_pow_20 : (2 : Nat) ^ 64 < 10 ^ 20 := by norm_num

/-- C3: the index-key encoding is order-preserving and fixed-width.  For
unsigned 64-bit values, `v1 < v2` implies `u64tostr v1 < u64tostr v2` in the
lexicographic string order, and every encoding is exactly 20 characters
long (the zero-left-padded decimal digits, which is `u64tostr`'s
definition). -/
theorem u64tostr_order_preserving_and_fixed_width (v1 v2 : Nat)
    (h1 : v1 < 2 ^ 64) (h2 : v2 < 2 ^ 64) :
    (v1 < v2 → u64tostr v1 < u64tostr v2) ∧ (u64tostr v1).length = 20 := by
  have e1 : v1 < 10 ^ 20 := lt_trans h1 two_pow_64_lt_ten_pow_20
  have e2 : v2 < 10 ^ 20 := lt_trans h2 two_pow_64_lt_ten_pow_20
  constructor
  · intro hlt
    rw [String.lt_iff_toList_lt]
    show List.Lex (· < ·) (u64tostr v1).data (u64tostr v2).data
    rw [u64tostr_data v1 e1, u64tostr_data v2 e2]
    exact padDigits_lt 20 v1 v2 hlt e2
  · show (u64tostr v1).data.length = 20
    rw [u64tostr_data v1 e1]
    exact padDigits_length 20 v1

/-- C3 witness: the order and width theorem applied at the concrete pair
3 < 17. -/
theorem u64tostr_order_preserving_witness :
    ((3 : Nat) < 2 ^ 64 ∧ (17 : Nat) < 2 ^ 64) ∧
      ((3 < 17 → u64tostr 3 < u64tostr 17) ∧ (u64tostr 3).length = 20) :=
  ⟨⟨by norm_num, by norm_num⟩,
    u64tostr_order_preserving_and_fixed_width 3 17 (by norm_num) (by norm_num)⟩

/-- Numeric value of a list of decimal digit characters (the value computed
by a decimal string-to-integer conversion). -/
def strValue (l : List Char) : Nat :=
  l.foldl (fun a c => a * 10 + (c.toNat - 48)) 0

theorem strValue_cons_zero (l : List Char) :
    strValue ('0' :: l) = strValue l := by
  simp [strValue, List.foldl]

theorem strValue_replicate_append (k : Nat) :
    ∀ l, strValue (List.replicate k '0' ++ l) = strValue l := by
  induction k with
  | zero => intro l; simp
  | succ k ih =>
    intro l
    rw [List.replicate_succ, List.cons_append, strValue_cons_zero, ih l]

theorem strValue_decRepr (v : Nat) : strValue (decRepr v) = v := by
  induction v using Nat.strong_induction_on with
  | _ v ih =>
    by_cases h : v < 10
    · rw [decRepr_lt10 v h]
      have := digitChar_toNat v h
      simp [strValue, List.foldl, this]
    · rw [decRepr_ge10 v h]
      have hlt : v / 10 < v := Nat.div_lt_self (by omega) (by omega)
      have hm : v % 10 < 10 := Nat.mod_lt v (by omega)
      have hc := digitChar_toNat (v % 10) hm
      have hfold : strValue (decRepr (v / 10) ++ [Nat.digitChar (v % 10)]) =
          strValue (decRepr (v / 10)) * 10 + ((Nat.digitChar (v % 10)).toNat - 48) := by
        simp [strValue, List.foldl_append, List.foldl]
      rw [hfold, ih (v / 10) hlt, hc]
      omega

/-- Models `boost::lexical_cast<uint64_t>` (an external library
collaborator) on the inputs of interest: a nonempty string consisting
solely of decimal digits whose value fits in 64 bits converts to that
value; anything else (empty input, a non-digit character, overflow) throws
`boost::bad_lexical_cast`, modelled as `none`. -/
def lexicalCastU64 (s : String) : Option Nat :=
  if s.data ≠ [] ∧ s.data.all Char.isDigit = true ∧ strValue s.data < 2 ^ 64 then
    some (strValue s.data)
  else none

/-- `strtou64` returns a pair (return code, out parameter): on success the
code is 0 and the out parameter holds the converted value; on a
`bad_lexical_cast` the code is `-EIO` (= -5) and the out parameter is left
unwritten, modelled as `none`. -/
def strtou64 (s : String) : Int × Option Nat :=
  match lexicalCastU64 s with
  | some v => (0, some v)
  | none => (-5, none)

/-- C4: the key encoding round-trips exactly — for every unsigned 64-bit
value `v`, `strtou64 (u64tostr v)` returns code 0 and writes `v` to the out
parameter — and on the non-numeric input `"abc"` it returns the negative
error code `-EIO` and leaves the out parameter unwritten. -/
theorem strtou64_u64tostr_roundtrip (v : Nat) (h : v < 2 ^ 64) :
    strtou64 (u64tostr v) = (0, some v) ∧
      strtou64 "abc" = (-5, none) ∧ (-5 : Int) < 0 := by
  refine ⟨?_, by decide, by decide⟩
  have hdata : (u64tostr v).data =
      List.replicate (20 - (Nat.repr v).length) '0' ++ decRepr v := by
    show List.replicate (20 - (Nat.repr v).length) '0' ++ (Nat.repr v).data = _
    rw [Nat_repr_data_eq_decRepr]
  have hval : strValue (u64tostr v).data = v := by
    rw [hdata, strValue_replicate_append, strValue_decRepr]
  have hne : (u64tostr v).data ≠ [] := by
    rw [hdata]
    intro hnil
    rcases List.append_eq_nil.mp hnil with ⟨_, hd⟩
    exact decRepr_ne_nil v hd
  have hdig : (u64tostr v).data.all Char.isDigit = true := by
    rw [hdata, List.all_append]
    refine Bool.and_eq_true_iff.mpr ⟨?_, decRepr_all_digits v⟩
    simp only [List.all_eq_true]
    intro c hc
    rw [List.eq_of_mem_replicate hc]
    decide
  have hcast : lexicalCastU64 (u64tostr v) = some v := by
    unfold lexicalCastU64
    rw [if_pos ⟨hne, hdig, by rw [hval]; exact h⟩, hval]
  unfold strtou64
  rw [hcast]

/-- C4 witness: the round-trip theorem applied at the concrete value 7. -/
theorem strtou64_u64tostr_roundtrip_witness :
    (7 : Nat) < 2 ^ 64 ∧
      (strtou64 (u64tostr 7) = (0, some 7) ∧
        strtou64 "abc" = (-5, none) ∧ (-5 : Int) < 0) :=
  ⟨by norm_num, strtou64_u64tostr_roundtrip 7 (by norm_num)⟩

/-! ### `col_info` and `compareColInfo` -/

/-- Column metadata used for the schema (`struct col_info`): ordinal index,
type tag, is-key flag, nullable flag, name.  The C++ `int` fields are
modelled as unbounded `Int` (all values of interest are in range). -/
structure col_info where
  idx : Int
  type : Int
  is_key : Bool
  nullable : Bool
  name : String
deriving DecidableEq

/-- The typed constructor `col_info(int, int, bool, bool, std::string)`;
the `assert(type >= SDT_FIRST && type <= SDT_LAST)` is modelled as
construction failure (`none`). -/
def mkColInfo (i t : Int) (key nulls : Bool) (n : String) : Option col_info :=
  if SDT_FIRST ≤ t ∧ t ≤ SDT_LAST then some ⟨i, t, key, nulls, n⟩ else none

/-- Models `std::stoi` (standard-library collaborator) on the inputs of
interest: an optional leading minus sign followed by decimal digits; a
string with no leading digit sequence throws `std::invalid_argument`,
modelled as `none`.  The C++ `int` is modelled as unbounded `Int`. -/
def stoi (s : String) : Option Int :=
  if s.data.head? = some '-' then
    (if s.data.tail ≠ [] ∧ s.data.tail.all Char.isDigit = true then
      some (-(strValue s.data.tail : Nat)) else none)
  else
    (if s.data ≠ [] ∧ s.data.all Char.isDigit = true then
      some ((strValue s.data : Nat) : Int) else none)

/-- The five-string constructor
`col_info(std::string, std::string, std::string, std::string, std::string)`:
`idx` and `type` are converted with `std::stoi`, the flags test whether the
first character is `'1'`, and the same range `assert` applies. -/
def mkColInfoFromStrings (i t key nulls n : String) : Option col_info :=
  match stoi i, stoi t with
  | some idx, some ty =>
    if SDT_FIRST ≤ ty ∧ ty ≤ SDT_LAST then
      some ⟨idx, ty, key.data.head? == some '1', nulls.data.head? == some '1', n⟩
    else none
  | _, _ => none

/-- `std::to_string` applied to a C++ `bool` (which promotes to `int`):
`"1"` for true, `"0"` for false. -/
def boolRepr (b : Bool) : String := if b then "1" else "0"

/-- `col_info::toString()`:
`"   " + to_string(idx) + " " + to_string(type) + " " + to_string(is_key)
 + " " + to_string(nullable) + " " + name + "   "`. -/
def col_info.toString (c : col_info) : String :=
  "   " ++ Int.repr c.idx ++ " " ++ Int.repr c.type ++ " " ++
    boolRepr c.is_key ++ " " ++ boolRepr c.nullable ++ " " ++ c.name ++ "   "

def compareColInfo (l r : col_info) : Bool :=
  (l.idx == r.idx) &&
  (l.type == r.type) &&
  (l.is_key == r.is_key) &&
  (l.nullable == r.nullable) &&
  (l.name == r.name)

/-- C7: `compareColInfo` returns true exactly when all five fields agree. -/
theorem compareColInfo_iff_all_fields (l r : col_info) :
    compareColInfo l r = true ↔
      (l.idx = r.idx ∧ l.type = r.type ∧ l.is_key = r.is_key ∧
        l.nullable = r.nullable ∧ l.name = r.name) := by
  simp [compareColInfo, and_assoc]

/-- C6: every successfully constructed `col_info` — from the typed
constructor or the five-string constructor — has a type tag between
`SDT_FIRST` (`SDT_INT8`) and `SDT_LAST` (`SDT_STRING`), and the typed
constructor fails outright on an out-of-range tag. -/
theorem colinfo_type_range_invariant (i t : Int) (k nl : Bool) (n : String) :
    (∀ c, mkColInfo i t k nl n = some c →
      SDT_FIRST ≤ c.type ∧ c.type ≤ SDT_LAST) ∧
    (¬ (SDT_FIRST ≤ t ∧ t ≤ SDT_LAST) → mkColInfo i t k nl n = none) ∧
    (∀ si st sk snl sn : String, ∀ c, mkColInfoFromStrings si st sk snl sn = some c →
      SDT_FIRST ≤ c.type ∧ c.type ≤ SDT_LAST) := by
  refine ⟨?_, ?_, ?_⟩
  · intro c hc
    unfold mkColInfo at hc
    split at hc
    · rename_i hrange
      cases hc
      exact hrange
    · exact absurd hc (by simp)
  · intro hrange
    unfold mkColInfo
    rw [if_neg hrange]
  · intro si st sk snl sn c hc
    unfold mkColInfoFromStrings at hc
    split at hc
    · rename_i idx ty _ _
      split at hc
      · rename_i hrange
        cases hc
        exact hrange
      · exact absurd hc (by simp)
    · exact absurd hc (by simp)

/-- C6 witness: construction with the out-of-range tag 20 fails, and the
invariant holds for a descriptor constructed with the in-range tag
`SDT_INT64`. -/
theorem colinfo_type_range_witness :
    mkColInfo 0 20 false false "x" = none ∧
      (SDT_FIRST ≤ col_info.type ⟨0, SDT_INT64, true, false, "x"⟩ ∧
        col_info.type ⟨0, SDT_INT64, true, false, "x"⟩ ≤ SDT_LAST) :=
  ⟨(colinfo_type_range_invariant 0 20 false false "x").2.1 (by decide),
    (colinfo_type_range_invariant 0 SDT_INT64 true false "x").1
      ⟨0, SDT_INT64, true, false, "x"⟩ (by decide)⟩

/-! ### Whitespace tokenization

Splitting a character list at whitespace, used both for the
"five whitespace-separated fields" of `col_info::toString` (C5) and for
the spec-modelled schema parser (C9). -/

/-- Split a list at every character satisfying `p` (separators are
dropped; empty chunks are kept). -/
def splitOnP (p : Char → Bool) : List Char → List (List Char)
  | [] => [[]]
  | c :: cs =>
    if p c then [] :: splitOnP p cs
    else
      match splitOnP p cs with
      | [] => [[c]]
      | y :: ys => (c :: y) :: ys

/-- The whitespace-separated fields of a character list. -/
def tokens (l : List Char) : List (List Char) :=
  (splitOnP (fun c => c.isWhitespace) l).filter (fun t => t ≠ [])

theorem splitOnP_ne_nil (p : Char → Bool) : ∀ l, splitOnP p l ≠ [] := by
  intro l
  cases l with
  | nil => simp [splitOnP]
  | cons c cs =>
    by_cases h : p c
    · simp [splitOnP, h]
    · cases hs : splitOnP p cs with
      | nil => simp [splitOnP, h, hs]
      | cons y ys => simp [splitOnP, h, hs]

theorem splitOnP_cons_neg (p : Char → Bool) (x : Char) (cs : List Char)
    (hx : ¬ p x = true) :
    splitOnP p (x :: cs) =
      match splitOnP p cs with
      | [] => [[x]]
      | y :: ys => (x :: y) :: ys := by
  simp [splitOnP, hx]

theorem splitOnP_append (p : Char → Bool) (c : Char) (hc : p c = true) :
    ∀ xs ys, splitOnP p (xs ++ c :: ys) = splitOnP p xs ++ splitOnP p ys := by
  intro xs
  induction xs with
  | nil => intro ys; simp [splitOnP, hc]
  | cons x xs ih =>
    intro ys
    by_cases hx : p x
    · simp [splitOnP, hx, ih ys]
    · rcases List.exists_cons_of_ne_nil (splitOnP_ne_nil p xs) with ⟨y, ys', hys⟩
      rw [List.cons_append, splitOnP_cons_neg p x _ hx,
        splitOnP_cons_neg p x xs hx, ih ys, hys]
      simp

theorem splitOnP_word (p : Char → Bool) :
    ∀ l, l.all (fun a => !p a) = true → splitOnP p l = [l] := by
  intro l
  induction l with
  | nil => intro _; rfl
  | cons c cs ih =>
    intro h
    rw [List.all_cons, Bool.and_eq_true] at h
    have hc : ¬ p c = true := by
      rcases h with ⟨h1, _⟩
      simp at h1
      simp [h1]
    simp [splitOnP, hc, ih h.2]

theorem tokens_ws_cons (c : Char) (hc : c.isWhitespace = true) (l : List Char) :
    tokens (c :: l) = tokens l := by
  simp [tokens, splitOnP, hc]

theorem tokens_append_ws (c : Char) (hc : c.isWhitespace = true)
    (xs ys : List Char) : tokens (xs ++ c :: ys) = tokens xs ++ tokens ys := by
  simp [tokens, splitOnP_append _ c hc, List.filter_append]

theorem tokens_word (l : List Char) (hne : l ≠ [])
    (hl : l.all (fun a => !a.isWhitespace) = true) : tokens l = [l] := by
  simp [tokens, splitOnP_word _ l hl, List.filter, hne]

theorem tokens_nil : tokens [] = [] := rfl

/-! ### Decimal representations are whitespace-free tokens -/

theorem intRepr_ne_nil (i : Int) : (Int.repr i).data ≠ [] := by
  cases i with
  | ofNat m =>
    show (Nat.repr m).data ≠ []
    rw [Nat_repr_data_eq_decRepr]
    exact decRepr_ne_nil m
  | negSucc m =>
    show (("-" : String) ++ Nat.repr (m + 1)).data ≠ []
    rw [String.data_append]
    simp

theorem intRepr_no_ws (i : Int) :
    (Int.repr i).data.all (fun a => !a.isWhitespace) = true := by
  cases i with
  | ofNat m =>
    show (Nat.repr m).data.all _ = true
    rw [Nat_repr_data_eq_decRepr]
    exact decRepr_all_not_ws m
  | negSucc m =>
    show (("-" : String) ++ Nat.repr (m + 1)).data.all _ = true
    rw [String.data_append, List.all_append]
    refine Bool.and_eq_true_iff.mpr ⟨by decide, ?_⟩
    rw [Nat_repr_data_eq_decRepr]
    exact decRepr_all_not_ws (m + 1)

theorem intRepr_tokens (i : Int) : tokens (Int.repr i).data = [(Int.repr i).data] :=
  tokens_word _ (intRepr_ne_nil i) (intRepr_no_ws i)

theorem boolRepr_ne_nil (b : Bool) : (boolRepr b).data ≠ [] := by
  cases b <;> simp [boolRepr]

theorem boolRepr_no_ws (b : Bool) :
    (boolRepr b).data.all (fun a => !a.isWhitespace) = true := by
  cases b <;> decide

theorem boolRepr_tokens (b : Bool) :
    tokens (boolRepr b).data = [(boolRepr b).data] :=
  tokens_word _ (boolRepr_ne_nil b) (boolRepr_no_ws b)

/-! ### `stoi` round-trips `std::to_string` -/

theorem all_digits_head_not_minus (l : List Char) (c : Char) (cs : List Char)
    (hl : l.all Char.isDigit = true) (hcons : l = c :: cs) : ¬ c = '-' := by
  subst hcons
  rw [List.all_cons, Bool.and_eq_true] at hl
  intro hminus
  subst hminus
  simp at hl

theorem stoi_natRepr (m : Nat) : stoi (Nat.repr m) = some (m : Int) := by
  have hdata := Nat_repr_data_eq_decRepr m
  have hdig : (Nat.repr m).data.all Char.isDigit = true := by
    rw [hdata]; exact decRepr_all_digits m
  have hne : (Nat.repr m).data ≠ [] := by
    rw [hdata]; exact decRepr_ne_nil m
  rcases List.exists_cons_of_ne_nil hne with ⟨c, cs, hcons⟩
  have hnotminus : ¬ c = '-' := all_digits_head_not_minus _ c cs hdig hcons
  have hhead : ¬ (Nat.repr m).data.head? = some '-' := by
    rw [hcons]
    simp [hnotminus]
  unfold stoi
  rw [if_neg hhead, if_pos ⟨hne, hdig⟩, hdata, strValue_decRepr]

theorem stoi_intRepr (i : Int) : stoi (Int.repr i) = some i := by
  cases i with
  | ofNat m => exact stoi_natRepr m
  | negSucc m =>
    show stoi (("-" : String) ++ Nat.repr (m + 1)) = some (Int.negSucc m)
    have hdata : (("-" : String) ++ Nat.repr (m + 1)).data =
        '-' :: decRepr (m + 1) := by
      rw [String.data_append, Nat_repr_data_eq_decRepr]
      rfl
    unfold stoi
    rw [hdata]
    have hne : decRepr (m + 1) ≠ [] := decRepr_ne_nil (m + 1)
    have hdig : (decRepr (m + 1)).all Char.isDigit = true :=
      decRepr_all_digits (m + 1)
    simp only [List.head?_cons, List.tail_cons, if_pos rfl, hne, hdig,
      ne_eq, not_false_eq_true, and_self, if_true, strValue_decRepr]
    rw [Int.negSucc_eq]
    simp

theorem boolRepr_head_eq (b : Bool) :
    ((boolRepr b).data.head? == some '1') = b := by
  cases b <;> decide

/-- C5: the per-column string serialization round-trips.  For every valid
column descriptor (type tag in the supported range, name a nonempty
whitespace-free token), the five whitespace-separated fields of
`c.toString()` are exactly the printed idx, type, is_key, nullable and
name, and constructing a `col_info` from those five fields succeeds and
yields a descriptor equal to `c` under `compareColInfo`. -/
theorem colinfo_toString_roundtrip (c : col_info)
    (h1 : SDT_FIRST ≤ c.type) (h2 : c.type ≤ SDT_LAST)
    (h3 : c.name.data ≠ [])
    (h4 : c.name.data.all (fun a => !a.isWhitespace) = true) :
    tokens (col_info.toString c).data =
      [(Int.repr c.idx).data, (Int.repr c.type).data,
        (boolRepr c.is_key).data, (boolRepr c.nullable).data, c.name.data] ∧
    ∃ c2, mkColInfoFromStrings (Int.repr c.idx) (Int.repr c.type)
        (boolRepr c.is_key) (boolRepr c.nullable) c.name = some c2 ∧
      compareColInfo c2 c = true := by
  constructor
  · have hdata : (col_info.toString c).data =
        ' ' :: ' ' :: ' ' :: ((Int.repr c.idx).data ++ ' ' ::
          ((Int.repr c.type).data ++ ' ' :: ((boolRepr c.is_key).data ++ ' ' ::
            ((boolRepr c.nullable).data ++ ' ' ::
              (c.name.data ++ ' ' :: [' ', ' ']))))) := by
      simp [col_info.toString, List.append_assoc]
    have hws : (' ' : Char).isWhitespace = true := by decide
    rw [hdata, tokens_ws_cons _ hws, tokens_ws_cons _ hws, tokens_ws_cons _ hws,
      tokens_append_ws _ hws, tokens_append_ws _ hws, tokens_append_ws _ hws,
      tokens_append_ws _ hws, tokens_append_ws _ hws,
      tokens_ws_cons _ hws, tokens_ws_cons _ hws, tokens_nil,
      intRepr_tokens, intRepr_tokens, boolRepr_tokens, boolRepr_tokens,
      tokens_word c.name.data h3 h4]
    rfl
  · refine ⟨⟨c.idx, c.type, c.is_key, c.nullable, c.name⟩, ?_, ?_⟩
    · have hcond : SDT_FIRST ≤ c.type ∧ c.type ≤ SDT_LAST := ⟨h1, h2⟩
      simp only [mkColInfoFromStrings, stoi_intRepr, boolRepr_head_eq]
      rw [if_pos hcond]
    · simp [compareColInfo]

/-- C5 witness: the round-trip theorem applied to the concrete descriptor
(0, SDT_INT64, key, non-nullable, "orderkey"). -/
theorem colinfo_toString_roundtrip_witness :
    (SDT_FIRST ≤ col_info.type ⟨0, SDT_INT64, true, false, "orderkey"⟩ ∧
      col_info.type ⟨0, SDT_INT64, true, false, "orderkey"⟩ ≤ SDT_LAST ∧
      (col_info.name ⟨0, SDT_INT64, true, false, "orderkey"⟩).data ≠ []) ∧
    (tokens (col_info.toString ⟨0, SDT_INT64, true, false, "orderkey"⟩).data =
      [(Int.repr 0).data, (Int.repr SDT_INT64).data,
        (boolRepr true).data, (boolRepr false).data, ("orderkey" : String).data] ∧
    ∃ c2, mkColInfoFromStrings (Int.repr 0) (Int.repr SDT_INT64)
        (boolRepr true) (boolRepr false) "orderkey" = some c2 ∧
      compareColInfo c2 ⟨0, SDT_INT64, true, false, "orderkey"⟩ = true) :=
  ⟨⟨by decide, by decide, by decide⟩,
    colinfo_toString_roundtrip ⟨0, SDT_INT64, true, false, "orderkey"⟩
      (by decide) (by decide) (by decide) (by decide)⟩

/-! ### `TypedPredicate`

The class template `TypedPredicate<T>` stores a column index, the column's
declared type, an operator, the global-aggregate flag, a regex pointer
`regx` (assigned only when the operator is `SOT_like`; otherwise the
pointer member is never initialized), and a `PredicateValue<T>`.  The
template parameter `T` together with the stored value is embedded as the
inductive `SkyVal`; the C++ type-trait tests on `T` become functions on
the constructor tag. -/

inductive SkyVal where
  | svInt8 (v : Int)
  | svInt16 (v : Int)
  | svInt32 (v : Int)
  | svInt64 (v : Int)
  | svUint8 (v : Nat)
  | svUint16 (v : Nat)
  | svUint32 (v : Nat)
  | svUint64 (v : Nat)
  | svChar (v : Char)
  | svUchar (v : Nat)
  | svBool (v : Bool)
  | svFloat (v : ℚ)
  | svDouble (v : ℚ)
  | svString (v : String)
deriving DecidableEq

/-- `std::is_arithmetic<T>`: true for every supported `T` except
`std::string`. -/
def isArithmeticT : SkyVal → Bool
  | .svString _ => false
  | _ => true

/-- `std::is_integral<T>`: excludes `float`, `double` and `std::string`. -/
def isIntegralT : SkyVal → Bool
  | .svFloat _ => false
  | .svDouble _ => false
  | .svString _ => false
  | _ => true

/-- `std::is_unsigned<T>`: the unsigned integer types, `unsigned char` and
`bool`; `char` is signed on the target platform. -/
def isUnsignedT : SkyVal → Bool
  | .svUint8 _ => true
  | .svUint16 _ => true
  | .svUint32 _ => true
  | .svUint64 _ => true
  | .svUchar _ => true
  | .svBool _ => true
  | _ => false

/-- `std::is_same<T, std::string>`. -/
def isStringT : SkyVal → Bool
  | .svString _ => true
  | _ => false

/-- `std::is_same<T, char>`. -/
def isCharT : SkyVal → Bool
  | .svChar _ => true
  | _ => false

/-- `std::is_same<T, unsigned char>`. -/
def isUcharT : SkyVal → Bool
  | .svUchar _ => true
  | _ => false

/-- `pattern = this->Val()` — the stored value forced to `std::string` for
regex compilation (only reachable for string/char/uchar values, the only
`T` the `SOT_like` assert admits). -/
def valToStr : SkyVal → String
  | .svString s => s
  | .svChar c => ⟨[c]⟩
  | .svUchar n => ⟨[Char.ofNat n]⟩
  | _ => ""

structure TypedPredicate where
  col_idx : Int
  col_type : Int
  op_type : Int
  is_global_agg : Bool
  regx : Option String
  value : SkyVal
deriving DecidableEq

/-- The `TypedPredicate(int idx, int type, int op, const T& val)`
constructor.  `re2ok pat` models the external RE2 collaborator's
`re2::RE2(pat).ok()`.  Each `assert` that can fail is modelled as
construction failure (`none`); `is_global_agg` is computed in the member
initializer list; `regx` is assigned only in the `SOT_like` branch and is
otherwise left uninitialized (`none`). -/
def mkTypedPredicate (re2ok : String → Bool) (idx colType op : Int)
    (val : SkyVal) : Option TypedPredicate :=
  let arith_ok :=
    isArithmeticT val &&
    (colType == SDT_INT8 || colType == SDT_INT16 || colType == SDT_INT32 ||
     colType == SDT_INT64 || colType == SDT_UINT8 || colType == SDT_UINT16 ||
     colType == SDT_UINT32 || colType == SDT_UINT64 || colType == SDT_BOOL ||
     colType == SDT_CHAR || colType == SDT_UCHAR || colType == SDT_FLOAT ||
     colType == SDT_DOUBLE)
  let like_ok :=
    (isStringT val || isUcharT val || isCharT val) &&
    (colType == SDT_STRING || colType == SDT_CHAR || colType == SDT_UCHAR)
  let logical_ok :=
    isIntegralT val &&
    (colType == SDT_INT8 || colType == SDT_INT16 || colType == SDT_INT32 ||
     colType == SDT_INT64 || colType == SDT_UINT8 || colType == SDT_UINT16 ||
     colType == SDT_UINT32 || colType == SDT_UINT64 || colType == SDT_BOOL ||
     colType == SDT_CHAR || colType == SDT_UCHAR)
  let bitwise_ok := isIntegralT val && isUnsignedT val
  let switch_ok :=
    if op == SOT_lt || op == SOT_gt || op == SOT_eq || op == SOT_ne ||
       op == SOT_leq || op == SOT_geq || op == SOT_add || op == SOT_sub ||
       op == SOT_mul || op == SOT_div || op == SOT_min || op == SOT_max ||
       op == SOT_sum || op == SOT_cnt then arith_ok
    else if op == SOT_like then like_ok
    else if op == SOT_in || op == SOT_not_in then false
    else if op == SOT_between then false
    else if op == SOT_logical_or || op == SOT_logical_and ||
            op == SOT_logical_not || op == SOT_logical_nor ||
            op == SOT_logical_xor || op == SOT_logical_nand then logical_ok
    else if op == SOT_bitwise_and || op == SOT_bitwise_or then bitwise_ok
    else false
  let agg := op == SOT_min || op == SOT_max || op == SOT_sum || op == SOT_cnt
  if switch_ok then
    (if op == SOT_like then
      (if re2ok (valToStr val) then
        some ⟨idx, colType, op, agg, some (valToStr val), val⟩
      else none)
    else some ⟨idx, colType, op, agg, none, val⟩)
  else none

/-- The copy constructor `TypedPredicate(const TypedPredicate &p)`: it
copies the five fields and unconditionally evaluates
`new re2::RE2(p.regx->pattern())`.  When `p.regx` was never assigned
(every non-`SOT_like` predicate) the dereference of the uninitialized
pointer is undefined behaviour, modelled as `none`. -/
def copyTypedPredicate (p : TypedPredicate) : Option TypedPredicate :=
  match p.regx with
  | some pat =>
    some ⟨p.col_idx, p.col_type, p.op_type, p.is_global_agg, some pat, p.value⟩
  | none => none

/-- C8: a `TypedPredicate` with the `SOT_like` (regex-match) operator can be
constructed exactly when the value type is `std::string`, `char` or
`unsigned char`, the declared column type is `SDT_STRING`, `SDT_CHAR` or
`SDT_UCHAR`, and the pattern compiles; every other combination fails at
construction time. -/
theorem mkTypedPredicate_like_eq (re2ok : String → Bool) (idx colType : Int)
    (val : SkyVal) :
    mkTypedPredicate re2ok idx colType SOT_like val =
      (if ((isStringT val || isUcharT val || isCharT val) &&
            (colType == SDT_STRING || colType == SDT_CHAR ||
              colType == SDT_UCHAR) &&
            re2ok (valToStr val)) = true
       then some ⟨idx, colType, SOT_like, false, some (valToStr val), val⟩
       else none) := by
  have hops : ((SOT_like == SOT_lt || SOT_like == SOT_gt || SOT_like == SOT_eq ||
      SOT_like == SOT_ne || SOT_like == SOT_leq || SOT_like == SOT_geq ||
      SOT_like == SOT_add || SOT_like == SOT_sub || SOT_like == SOT_mul ||
      SOT_like == SOT_div || SOT_like == SOT_min || SOT_like == SOT_max ||
      SOT_like == SOT_sum || SOT_like == SOT_cnt) : Bool) = false := by decide
  have hlike : ((SOT_like == SOT_like) : Bool) = true := by decide
  have hagg : ((SOT_like == SOT_min || SOT_like == SOT_max ||
      SOT_like == SOT_sum || SOT_like == SOT_cnt) : Bool) = false := by decide
  unfold mkTypedPredicate
  simp only [hops, hagg, hlike, Bool.false_eq_true, if_false, if_true]
  by_cases h1 : (isStringT val || isUcharT val || isCharT val) = true <;>
    by_cases h2 : ((colType == SDT_STRING || colType == SDT_CHAR ||
      colType == SDT_UCHAR) : Bool) = true <;>
      by_cases h3 : re2ok (valToStr val) = true <;>
        simp [h1, h2, h3]

/-- C8: a `TypedPredicate` with the `SOT_like` (regex-match) operator can be
constructed exactly when the value type is `std::string`, `char` or
`unsigned char`, the declared column type is `SDT_STRING`, `SDT_CHAR` or
`SDT_UCHAR`, and the pattern compiles; every other combination — for
example the LIKE operator against a numeric column — fails at
construction time, so evaluation never sees an invalid LIKE predicate. -/
theorem like_predicate_construction_iff (re2ok : String → Bool)
    (idx colType : Int) (val : SkyVal) :
    (∃ p, mkTypedPredicate re2ok idx colType SOT_like val = some p) ↔
      ((isStringT val || isUcharT val || isCharT val) = true ∧
        (colType = SDT_STRING ∨ colType = SDT_CHAR ∨ colType = SDT_UCHAR) ∧
        re2ok (valToStr val) = true) := by
  rw [mkTypedPredicate_like_eq]
  by_cases hcond : ((isStringT val || isUcharT val || isCharT val) &&
      (colType == SDT_STRING || colType == SDT_CHAR || colType == SDT_UCHAR) &&
      re2ok (valToStr val)) = true
  · rw [if_pos hcond]
    simp only [Bool.and_eq_true, Bool.or_eq_true, beq_iff_eq] at hcond
    constructor
    · intro _
      refine ⟨?_, ?_, hcond.2⟩
      · simp only [Bool.or_eq_true]
        tauto
      · tauto
    · intro _
      exact ⟨_, rfl⟩
  · rw [if_neg hcond]
    simp only [Bool.and_eq_true, Bool.or_eq_true, beq_iff_eq] at hcond
    constructor
    · intro ⟨p, hp⟩
      simp at hp
    · intro ⟨hstr, hcol, hre⟩
      simp only [Bool.or_eq_true] at hstr
      exact absurd ⟨⟨by tauto, by tauto⟩, hre⟩ hcond

/-- C8 at a concrete failing combination: the LIKE operator against the
numeric column type `SDT_INT64` (with a string value and an
always-compiling pattern) is a construction-time failure. -/
theorem like_predicate_numeric_column_fails :
    mkTypedPredicate (fun _ => true) 0 SDT_INT64 SOT_like
      (SkyVal.svString "a.*") = none := by
  decide

/-- C10: evaluating the code at the failing input.  A predicate with the
non-LIKE operator `SOT_eq` constructs successfully with its `regx` member
never assigned, and copy-constructing it dereferences that uninitialized
member — undefined behaviour, modelled as a `none` result of the copy. -/
theorem copy_of_non_like_predicate_reads_uninitialized_regex :
    mkTypedPredicate (fun _ => true) 0 SDT_INT64 SOT_eq (SkyVal.svInt64 42) =
      some ⟨0, SDT_INT64, SOT_eq, false, none, SkyVal.svInt64 42⟩ ∧
    Option.bind
      (mkTypedPredicate (fun _ => true) 0 SDT_INT64 SOT_eq (SkyVal.svInt64 42))
      copyTypedPredicate = none := by
  constructor
  · decide
  · decide

/-- For predicates whose `regx` was actually assigned (the `SOT_like`
ones), the copy succeeds and preserves `col_idx`, `col_type`, `op_type`,
`is_global_agg` and the stored value — the field-preservation half of the
claim, which holds exactly on the predicates the copy is defined for. -/
theorem copy_preserves_fields_when_defined (p q : TypedPredicate)
    (h : copyTypedPredicate p = some q) :
    q.col_idx = p.col_idx ∧ q.col_type = p.col_type ∧
      q.op_type = p.op_type ∧ q.is_global_agg = p.is_global_agg ∧
      q.value = p.value := by
  unfold copyTypedPredicate at h
  split at h
  · cases h
    exact ⟨rfl, rfl, rfl, rfl, rfl⟩
  · exact absurd h (by simp)

/-- Witness for the field-preservation lemma at a concrete LIKE
predicate. -/
theorem copy_preserves_fields_witness :
    copyTypedPredicate
        ⟨2, SDT_STRING, SOT_like, false, some "a.*", SkyVal.svString "a.*"⟩ =
      some ⟨2, SDT_STRING, SOT_like, false, some "a.*", SkyVal.svString "a.*"⟩ ∧
    ((2 : Int) = 2 ∧ (SDT_STRING : Int) = SDT_STRING ∧ (SOT_like : Int) = SOT_like ∧
      (false = false) ∧ SkyVal.svString "a.*" = SkyVal.svString "a.*") :=
  ⟨by decide,
    copy_preserves_fields_when_defined
      ⟨2, SDT_STRING, SOT_like, false, some "a.*", SkyVal.svString "a.*"⟩
      ⟨2, SDT_STRING, SOT_like, false, some "a.*", SkyVal.svString "a.*"⟩
      (by decide)⟩

/-! ### The lineitem test schema and schema parsing/projection

`lineitem_test_schema_string` is built in the source by concatenating
string literals with `std::to_string(SDT_...)`; the C++ backslash
line-splices put four leading spaces before each column line and leave a
whitespace-only tail after the last `\n`.  Note the source spells the
13th column name `receipdate` (sic). -/

def lineitem_test_schema_string : String :=
  "     0 " ++ Int.repr SDT_INT64 ++ " 1 0 orderkey \n    1 " ++
    Int.repr SDT_INT32 ++ " 0 1 partkey \n    2 " ++
    Int.repr SDT_INT32 ++ " 0 1 suppkey \n    3 " ++
    Int.repr SDT_INT64 ++ " 1 0 linenumber \n    4 " ++
    Int.repr SDT_FLOAT ++ " 0 1 quantity \n    5 " ++
    Int.repr SDT_DOUBLE ++ " 0 1 extendedprice \n    6 " ++
    Int.repr SDT_FLOAT ++ " 0 1 discount \n    7 " ++
    Int.repr SDT_DOUBLE ++ " 0 1 tax \n    8 " ++
    Int.repr SDT_CHAR ++ " 0 1 returnflag \n    9 " ++
    Int.repr SDT_CHAR ++ " 0 1 linestatus \n    10 " ++
    Int.repr SDT_DATE ++ " 0 1 shipdate \n    11 " ++
    Int.repr SDT_DATE ++ " 0 1 commitdate \n    12 " ++
    Int.repr SDT_DATE ++ " 0 1 receipdate \n    13 " ++
    Int.repr SDT_STRING ++ " 0 1 shipinstruct \n    14 " ++
    Int.repr SDT_STRING ++ " 0 1 shipmode \n    15 " ++
    Int.repr SDT_STRING ++ " 0 1 comment \n    "

/-- Modelled from the spec: `schemaFromString` is declared in the header
but its definition is not under `src/`.  Spec §4.1/§6: one column per
line, whitespace-delimited fields in the fixed order
`idx type is_key nullable name`, each line parsed with the five-string
`col_info` constructor; a line with the wrong number of fields is a parse
failure (`BadColInfoFormat`), and whitespace-only lines carry no column. -/
def schemaFromString (s : String) : Option (List col_info) :=
  let lines := splitOnP (fun c => c == '\n') s.data
  let rows := (lines.map tokens).filter (fun ts => ts ≠ [])
  rows.mapM (fun ts =>
    match ts with
    | [i, t, k, nl, n] => mkColInfoFromStrings ⟨i⟩ ⟨t⟩ ⟨k⟩ ⟨nl⟩ ⟨n⟩
    | _ => none)

/-- Modelled from the spec: `schemaFromColNames` is declared in the header
but its definition is not under `src/`.  Spec §4.1: for `*` the current
schema is returned unchanged; otherwise the result holds, for each
requested name in the order named, the matching descriptor of the current
schema; an unmatched name fails (`RequestedColIndexOOB`). -/
def schemaFromColNames (current : List col_info)
    (project_col_names : String) : Option (List col_info) :=
  if project_col_names = "*" then some current
  else
    (splitOnP (fun c => c == ',') project_col_names.data).mapM
      (fun nm => current.find? (fun c => c.name == (⟨nm⟩ : String)))

/-- C9 counterexample: the claim's name list says `receiptdate`, but the
source schema string spells the 13th column `receipdate`, so parsing does
not yield the claimed names. -/
theorem lineitem_schema_names_counterexample :
    (schemaFromString lineitem_test_schema_string).map
        (fun sch => sch.map col_info.name) ≠
      some ["orderkey", "partkey", "suppkey", "linenumber", "quantity",
        "extendedprice", "discount", "tax", "returnflag", "linestatus",
        "shipdate", "commitdate", "receiptdate", "shipinstruct", "shipmode",
        "comment"] := by
  decide

/-- C9 (amended): parsing the built-in lineitem test schema string yields
exactly the 16 descriptors below — names in order with the 13th spelled
`receipdate` as in the source, with the listed types, key flags and
nullable flags — and projecting by the names `orderkey,quantity` yields
exactly the 2-column schema with orderkey at idx 0 and quantity (float)
at idx 4. -/
theorem lineitem_schema_parse_and_project :
    schemaFromString lineitem_test_schema_string =
      some [⟨0, SDT_INT64, true, false, "orderkey"⟩,
        ⟨1, SDT_INT32, false, true, "partkey"⟩,
        ⟨2, SDT_INT32, false, true, "suppkey"⟩,
        ⟨3, SDT_INT64, true, false, "linenumber"⟩,
        ⟨4, SDT_FLOAT, false, true, "quantity"⟩,
        ⟨5, SDT_DOUBLE, false, true, "extendedprice"⟩,
        ⟨6, SDT_FLOAT, false, true, "discount"⟩,
        ⟨7, SDT_DOUBLE, false, true, "tax"⟩,
        ⟨8, SDT_CHAR, false, true, "returnflag"⟩,
        ⟨9, SDT_CHAR, false, true, "linestatus"⟩,
        ⟨10, SDT_DATE, false, true, "shipdate"⟩,
        ⟨11, SDT_DATE, false, true, "commitdate"⟩,
        ⟨12, SDT_DATE, false, true, "receipdate"⟩,
        ⟨13, SDT_STRING, false, true, "shipinstruct"⟩,
        ⟨14, SDT_STRING, false, true, "shipmode"⟩,
        ⟨15, SDT_STRING, false, true, "comment"⟩] ∧
    Option.bind (schemaFromString lineitem_test_schema_string)
        (fun sch => schemaFromColNames sch "orderkey,quantity") =
      some [⟨0, SDT_INT64, true, false, "orderkey"⟩,
        ⟨4, SDT_FLOAT, false, true, "quantity"⟩] := by
  constructor
  · decide
  · decide

end Tables
